import Mathlib

/-
Verification development for the Investment-Calculator repository.

The calculation engine is the function `calculateInvestment` of
src/unnamed/part_001 (services/finance.ts).  It is embedded shallowly
below: JS numbers are modelled as rationals (ℚ); `Math.round` is
`jround` (floor of x + 1/2, which is what JS `Math.round` computes for
every finite number, including negatives and halves); a JS division
whose denominator is zero would produce a non-finite number
(Infinity or NaN), which has no counterpart in ℚ, so every division of
the source whose denominator is not a nonzero literal is modelled by
the checked division `cdiv`, and the engine returns `Option`: a `none`
result means the source arithmetic produced a non-finite value at some
division.  The source's `cagr` field (lines 299-302, 319) is the only
transcendental quantity (a real root); it is modelled separately by
`cagrOf` so that the engine itself stays executable.  Integer-valued
inputs of the documented domain (`timePeriodYears`, `compoundingFrequency`,
the two ages) are modelled with ℕ/ℤ.
-/

namespace Invest

/-- JS `Math.round`: floor of x + 1/2 (rounds halves toward +infinity). -/
def jround (q : ℚ) : ℚ := ((⌊q + 1/2⌋ : ℤ) : ℚ)

/-- Checked division: `none` when the denominator is zero, which is where the
JS source would produce `Infinity` or `NaN`. -/
def cdiv (a b : ℚ) : Option ℚ := if b = 0 then none else some (a / b)

/-- JS `x || d` on an optional number: `undefined` and `0` are falsy, any other
number stands for itself.  (`NaN`, also falsy, has no ℚ counterpart.) -/
def jsOr (x : Option ℚ) (d : ℚ) : ℚ :=
  match x with
  | none => d
  | some v => if v = 0 then d else v

/-- The calculator modes of types.ts (part_000, final revision). -/
inductive CalculatorMode
  | SIP | LUMPSUM | STOCK | PROPERTY | LOAN | COMPOUND | ROI | TAX | GOAL | RETIREMENT
deriving DecidableEq

/-- The engine's input record (`InvestmentInputs` of types.ts).  Optional
fields are `Option`; `timePeriodYears` and `interestRate` are required
(they carry no default in the source's destructuring, lines 4-28).
`expenseRatioPct` carries the source's expense-ratio field (percent per
year, subtracted from the interest rate). -/
structure InvestmentInputs where
  initialInvestment : Option ℚ := none
  monthlyContribution : Option ℚ := none
  stepUpRate : Option ℚ := none
  timePeriodYears : ℕ
  interestRate : ℚ
  compoundingFrequency : Option ℕ := none
  inflationRate : Option ℚ := none
  taxRate : Option ℚ := none
  expenseRatioPct : Option ℚ := none
  startYear : Option ℤ := none
  buyPrice : Option ℚ := none
  sellPrice : Option ℚ := none
  quantity : Option ℚ := none
  dividendYield : Option ℚ := none
  propertyPrice : Option ℚ := none
  rentalIncome : Option ℚ := none
  monthlyExpenses : Option ℚ := none
  appreciationRate : Option ℚ := none
  annualIncome : Option ℚ := none
  deductions : Option ℚ := none
  targetAmount : Option ℚ := none
  currentAge : Option ℤ := none
  retirementAge : Option ℤ := none
deriving DecidableEq

/-- One schedule row (`YearData` of types.ts).  Fields are ℚ because the TAX
branch (lines 276-283) pushes unrounded values. -/
structure YearData where
  year : ℕ
  label : ℤ
  invested : ℚ
  interest : ℚ
  total : ℚ
  realValue : ℚ
deriving DecidableEq

/-- The engine's result record (`CalculationResult` of types.ts), minus the
transcendental `cagr` field, which is modelled separately by `cagrOf`. -/
structure CalculationResult where
  totalInvested : ℚ
  finalValue : ℚ
  totalInterest : ℚ
  taxPayable : ℚ
  postTaxValue : ℚ
  yearlyData : List YearData
  monthlyPayment : ℚ
  roiPercentage : ℚ
  durationYears : ℕ
  doublingTime : ℚ
  purchasingPowerLoss : ℚ
deriving DecidableEq

/-- What a mode strategy (one arm of the source's `switch`, lines 52-285)
produces before the shared post-processing runs. -/
structure StrategyOut where
  totalInvested : ℚ
  finalValue : ℚ
  yearlyData : List YearData
  monthlyPayment : ℚ
  roiPercentage : ℚ
deriving DecidableEq

/-- Loop accumulator of the monthly SIP/RETIREMENT/GOAL loops
(`currentBalance`, `currentInvested`, `currentMonthlyContribution`,
`yearlyData`, lines 56-86 and 115-133). -/
structure MonthlyState where
  balance : ℚ
  invested : ℚ
  contrib : ℚ
  rows : List YearData
deriving DecidableEq

/-- Runs `f` at indices `start, start+1, ..., start+k-1` in ascending order,
threading the state; models the source's `for (let i = start; ...)` loops. -/
def loopA {σ : Type} (f : ℕ → σ → Option σ) : ℕ → ℕ → σ → Option σ
  | _, 0, s => some s
  | start, k + 1, s => (f start s).bind (loopA f (start + 1) k)

/-- Builds the rows of the stateless year loops (LUMPSUM/COMPOUND, LOAN,
STOCK, ROI): one row per year i = 1..t, in order. -/
def buildRows (mk : ℕ → Option YearData) : ℕ → Option (List YearData)
  | 0 => some []
  | t + 1 => do
      let rows ← buildRows mk t
      let row ← mk (t + 1)
      pure (rows ++ [row])

/-- One month of the SIP/RETIREMENT loop (lines 61-86): interest, then the
contribution; at each 12-month boundary the contribution steps up (when
`stepUpRate > 0`) and a row is recorded. -/
def sipStep (stepUpRate inflationRate : ℚ) (startYear : ℤ) (monthlyRate : ℚ)
    (i : ℕ) (s : MonthlyState) : Option MonthlyState :=
  let balance := s.balance * (1 + monthlyRate) + s.contrib
  let invested := s.invested + s.contrib
  if i % 12 = 0 then
    let contrib := if 0 < stepUpRate then s.contrib * (1 + stepUpRate / 100) else s.contrib
    let year := i / 12
    (cdiv balance ((1 + inflationRate / 100) ^ year)).map fun rv =>
      ⟨balance, invested, contrib,
        s.rows ++ [⟨year, startYear + year, jround invested,
          jround (balance - invested), jround balance, jround rv⟩]⟩
  else
    some ⟨balance, invested, s.contrib, s.rows⟩

/-- One month of the GOAL schedule loop (lines 117-133): the same balance
update with the solved level payment `monthlyPayment`; a row at each
12-month boundary.  The `contrib` component is unused and preserved. -/
def goalStep (inflationRate : ℚ) (startYear : ℤ) (ratePerMonth monthlyPayment : ℚ)
    (i : ℕ) (s : MonthlyState) : Option MonthlyState :=
  let balance := s.balance * (1 + ratePerMonth) + monthlyPayment
  let invested := s.invested + monthlyPayment
  if i % 12 = 0 then
    let year := i / 12
    (cdiv balance ((1 + inflationRate / 100) ^ year)).map fun rv =>
      ⟨balance, invested, s.contrib,
        s.rows ++ [⟨year, startYear + year, jround invested,
          jround (balance - invested), jround balance, jround rv⟩]⟩
  else
    some ⟨balance, invested, s.contrib, s.rows⟩

/-- The SIP/RETIREMENT strategy (lines 53-89). -/
def sipRun (initialInvestment monthlyContribution stepUpRate inflationRate : ℚ)
    (startYear : ℤ) (monthlyRate : ℚ) (months : ℕ) : Option StrategyOut := do
  let s ← loopA (sipStep stepUpRate inflationRate startYear monthlyRate) 1 months
    ⟨initialInvestment, initialInvestment, monthlyContribution, []⟩
  pure ⟨s.invested, s.balance, s.rows, 0, 0⟩

/-- The GOAL solve for the required level monthly payment (lines 97-112):
if the remaining target is not positive the payment is 0; if the monthly
rate is 0 it is `remaining / nMonths`; otherwise the closed-form annuity
inversion `remaining * i / ((1+i)^n - 1)`. -/
def goalSolvedPMT (target initialInvestment ratePerMonth : ℚ) (nMonths : ℕ) : Option ℚ :=
  let lumpsumCompounded := initialInvestment * (1 + ratePerMonth) ^ nMonths
  let remainingTarget := target - lumpsumCompounded
  if remainingTarget ≤ 0 then some 0
  else if ratePerMonth = 0 then cdiv remainingTarget (nMonths : ℚ)
  else cdiv (remainingTarget * ratePerMonth) ((1 + ratePerMonth) ^ nMonths - 1)

/-- The GOAL strategy (lines 91-136): solve for the payment, then regenerate
the schedule with that level payment. -/
def goalRun (initialInvestment target inflationRate : ℚ) (startYear : ℤ)
    (ratePerMonth : ℚ) (months : ℕ) : Option StrategyOut := do
  let pmt ← goalSolvedPMT target initialInvestment ratePerMonth months
  let s ← loopA (goalStep inflationRate startYear ratePerMonth pmt) 1 months
    ⟨initialInvestment, initialInvestment, pmt, []⟩
  pure ⟨s.invested, s.balance, s.rows, pmt, 0⟩

/-- The LUMPSUM/COMPOUND strategy (lines 138-158): closed-form compound
interest with `n` compounding periods per year; the per-year rows carry the
unrounded `totalInvested` (line 152 does not round it). -/
def lumpRun (initialInvestment r : ℚ) (n : ℕ) (t : ℕ) (inflationRate : ℚ)
    (startYear : ℤ) : Option StrategyOut := do
  let rate ← cdiv r (n : ℚ)
  let finalValue := initialInvestment * (1 + rate) ^ (n * t)
  let rows ← buildRows (fun i => do
    let val := initialInvestment * (1 + rate) ^ (n * i)
    let rv ← cdiv val ((1 + inflationRate / 100) ^ i)
    pure ⟨i, startYear + i, initialInvestment, jround (val - initialInvestment),
      jround val, jround rv⟩) t
  pure ⟨initialInvestment, finalValue, rows, 0, 0⟩

/-- The LOAN EMI (lines 165-169): `P / N` when the monthly rate is zero,
otherwise the standard amortization formula. -/
def loanEMI (P Rloan : ℚ) (Nloan : ℕ) : Option ℚ :=
  if Rloan = 0 then cdiv P (Nloan : ℚ)
  else cdiv (P * Rloan * (1 + Rloan) ^ Nloan) ((1 + Rloan) ^ Nloan - 1)

/-- The LOAN strategy (lines 160-189).  Note that the per-year outstanding
balance formula (line 176) divides by `(1+r)^N - 1` in every case, with no
zero-rate special case: at a zero rate it is 0/0. -/
def loanRun (P Rloan : ℚ) (Nloan : ℕ) (duration : ℕ) (startYear : ℤ) :
    Option StrategyOut := do
  let monthlyPayment ← loanEMI P Rloan Nloan
  let rows ← buildRows (fun i => do
    let monthsPassed := i * 12
    let remaining ← cdiv (P * ((1 + Rloan) ^ Nloan - (1 + Rloan) ^ monthsPassed))
      ((1 + Rloan) ^ Nloan - 1)
    let paidSoFar := monthlyPayment * monthsPassed
    let interestPaid := paidSoFar - (P - remaining)
    pure ⟨i, startYear + i, jround (P - remaining), jround interestPaid,
      jround remaining, 0⟩) duration
  pure ⟨P, monthlyPayment * Nloan, rows, monthlyPayment, 0⟩

/-- The STOCK strategy (lines 191-217): capital gains accrue linearly, and
dividends accrue linearly on the cost basis; rows keep the unrounded
`totalInvested`. -/
def stockRun (qty bPrice sPrice divYield : ℚ) (duration : ℕ) (inflationRate : ℚ)
    (startYear : ℤ) : Option StrategyOut := do
  let totalInvested := qty * bPrice
  let capitalGains := (sPrice - bPrice) * qty
  let totalDividends := (bPrice * qty) * (divYield / 100) * duration
  let finalValue := totalInvested + capitalGains + totalDividends
  let rows ← buildRows (fun i => do
    let progress ← cdiv (i : ℚ) (duration : ℚ)
    let perYearDividend ← cdiv totalDividends (duration : ℚ)
    let currentVal := totalInvested + capitalGains * progress + perYearDividend * i
    let rv ← cdiv currentVal ((1 + inflationRate / 100) ^ i)
    pure ⟨i, startYear + i, totalInvested, jround (currentVal - totalInvested),
      jround currentVal, jround rv⟩) duration
  pure ⟨totalInvested, finalValue, rows, 0, 0⟩

/-- Loop accumulator of the PROPERTY loop (`currentPropValue`,
`accumulatedNetRent`, lines 227-244). -/
structure PropState where
  value : ℚ
  rent : ℚ
  rows : List YearData
deriving DecidableEq

/-- One year of the PROPERTY loop (lines 230-244). -/
def propStep (pPrice yearlyNetRent appRate inflationRate : ℚ) (startYear : ℤ)
    (i : ℕ) (s : PropState) : Option PropState :=
  let value := s.value * (1 + appRate / 100)
  let rent := s.rent + yearlyNetRent
  (cdiv (value + rent) ((1 + inflationRate / 100) ^ i)).map fun rv =>
    ⟨value, rent,
      s.rows ++ [⟨i, startYear + i, pPrice, jround ((value - pPrice) + rent),
        jround (value + rent), jround rv⟩]⟩

/-- The PROPERTY strategy (lines 219-246). -/
def propertyRun (pPrice rIncomeYearly mExpensesYearly appRate : ℚ) (duration : ℕ)
    (inflationRate : ℚ) (startYear : ℤ) : Option StrategyOut := do
  let s ← loopA (propStep pPrice (rIncomeYearly - mExpensesYearly) appRate inflationRate startYear)
    1 duration ⟨pPrice, 0, []⟩
  pure ⟨pPrice, s.value + s.rent, s.rows, 0, 0⟩

/-- The ROI strategy (lines 248-267): the final value falls back to the
initial investment when `sellPrice` is missing or zero (line 250). -/
def roiRun (initialInvestment finalValue : ℚ) (duration : ℕ) (inflationRate : ℚ)
    (startYear : ℤ) : Option StrategyOut := do
  let profit := finalValue - initialInvestment
  let roiPercentage := if 0 < initialInvestment then (profit / initialInvestment) * 100 else 0
  let rows ← buildRows (fun i => do
    let progress ← cdiv (i : ℚ) (duration : ℚ)
    let currentVal := initialInvestment + profit * progress
    let rv ← cdiv currentVal ((1 + inflationRate / 100) ^ i)
    pure ⟨i, startYear + i, initialInvestment, jround (currentVal - initialInvestment),
      jround currentVal, jround rv⟩) duration
  pure ⟨initialInvestment, finalValue, rows, 0, roiPercentage⟩

/-- The TAX strategy (lines 269-284): a single unrounded row. -/
def taxRun (annualIncome deductions taxRate : ℚ) (startYear : ℤ) : StrategyOut :=
  let totalInvested := annualIncome
  let taxableIncome := max 0 (totalInvested - deductions)
  let calculatedTax := taxableIncome * (taxRate / 100)
  let finalValue := totalInvested - calculatedTax
  ⟨totalInvested, finalValue,
    [⟨1, startYear, totalInvested, calculatedTax, finalValue, finalValue⟩], 0, 0⟩

/-- The source's `new Date().getFullYear()` default for `startYear` (line 14),
fixed at the year this development was written. -/
def currentFullYear : ℤ := 2025

/-- The effective annual rate (line 40): the nominal rate less the expense
ratio, floored at 0. -/
def effRate (inp : InvestmentInputs) : ℚ :=
  max 0 (inp.interestRate - inp.expenseRatioPct.getD 0)

/-- The COMPOUND compounding frequency (line 140): destructuring default 1,
and `|| 1` maps an explicit 0 back to 1. -/
def compFreq (o : Option ℕ) : ℕ :=
  let cf := o.getD 1
  if cf = 0 then 1 else cf

/-- The GOAL target (line 97): `targetAmount || 1000000`. -/
def goalTarget (t : Option ℚ) : ℚ := jsOr t 1000000

/-- Modelled from the spec: the data-model section says every optional field,
`targetAmount` included, defaults to 0 when absent; this is the defaulting
the spec describes, to be compared with the engine's `goalTarget`. -/
def goalTargetSpec (t : Option ℚ) : ℚ := t.getD 0

/-- The effective duration (lines 37, 43-48): `timePeriodYears`, except in
RETIREMENT mode where, when both ages are truthy (supplied and nonzero),
it is `max 1 (retirementAge - currentAge)`. -/
def durationOf (mode : CalculatorMode) (currentAge retirementAge : Option ℤ)
    (timePeriodYears : ℕ) : ℕ :=
  if mode = CalculatorMode.RETIREMENT then
    match currentAge, retirementAge with
    | some c, some rA =>
        if c ≠ 0 ∧ rA ≠ 0 then (max 1 (rA - c)).toNat else timePeriodYears
    | _, _ => timePeriodYears
  else timePeriodYears

/-- The mode dispatch (the `switch` of lines 52-285), with the source's
destructuring defaults and `||` fallbacks applied at each access. -/
def runStrategy (mode : CalculatorMode) (inp : InvestmentInputs) : Option StrategyOut :=
  let r := effRate inp / 100
  let duration := durationOf mode inp.currentAge inp.retirementAge inp.timePeriodYears
  let months := duration * 12
  let startYear := inp.startYear.getD currentFullYear
  let inflationRate := inp.inflationRate.getD 0
  match mode with
  | CalculatorMode.SIP | CalculatorMode.RETIREMENT =>
      sipRun (inp.initialInvestment.getD 0) (inp.monthlyContribution.getD 0)
        (inp.stepUpRate.getD 0) inflationRate startYear (r / 12) months
  | CalculatorMode.GOAL =>
      goalRun (inp.initialInvestment.getD 0) (goalTarget inp.targetAmount)
        inflationRate startYear (r / 12) months
  | CalculatorMode.LUMPSUM =>
      lumpRun (inp.initialInvestment.getD 0) r 1 duration inflationRate startYear
  | CalculatorMode.COMPOUND =>
      lumpRun (inp.initialInvestment.getD 0) r (compFreq inp.compoundingFrequency)
        duration inflationRate startYear
  | CalculatorMode.LOAN =>
      loanRun (inp.initialInvestment.getD 0) (inp.interestRate / 12 / 100)
        (duration * 12) duration startYear
  | CalculatorMode.STOCK =>
      stockRun (jsOr inp.quantity 0) (jsOr inp.buyPrice 0) (jsOr inp.sellPrice 0)
        (jsOr inp.dividendYield 0) duration inflationRate startYear
  | CalculatorMode.PROPERTY =>
      propertyRun (jsOr inp.propertyPrice 0) (jsOr inp.rentalIncome 0 * 12)
        (jsOr inp.monthlyExpenses 0 * 12) (jsOr inp.appreciationRate 0)
        duration inflationRate startYear
  | CalculatorMode.ROI =>
      roiRun (inp.initialInvestment.getD 0)
        (jsOr inp.sellPrice (inp.initialInvestment.getD 0)) duration inflationRate startYear
  | CalculatorMode.TAX =>
      some (taxRun (jsOr inp.annualIncome 0) (jsOr inp.deductions 0)
        (inp.taxRate.getD 0) startYear)

/-- The shared post-processing and result assembly (lines 287-323): tax on
gain, doubling time, rounding of the monetary fields, purchasing-power loss
from the unrounded final value. -/
def assemble (mode : CalculatorMode) (taxRate effectiveRate : ℚ) (duration : ℕ)
    (out : StrategyOut) : CalculationResult :=
  let taxPayable :=
    if mode ≠ CalculatorMode.LOAN ∧ mode ≠ CalculatorMode.TAX then
      (if 0 < out.finalValue - out.totalInvested then
        (out.finalValue - out.totalInvested) * (taxRate / 100) else 0)
    else if mode = CalculatorMode.TAX then out.totalInvested - out.finalValue
    else 0
  let postTaxValue :=
    out.finalValue - (if mode = CalculatorMode.TAX then 0 else taxPayable)
  let doublingTime := if 0 < effectiveRate then 72 / effectiveRate else 0
  let lastReal :=
    match out.yearlyData.getLast? with
    | some row => row.realValue
    | none => 0
  { totalInvested := jround out.totalInvested
    finalValue := jround out.finalValue
    totalInterest := jround (out.finalValue - out.totalInvested)
    taxPayable := jround taxPayable
    postTaxValue := jround postTaxValue
    yearlyData := out.yearlyData
    monthlyPayment := jround out.monthlyPayment
    roiPercentage := out.roiPercentage
    durationYears := duration
    doublingTime := doublingTime
    purchasingPowerLoss := out.finalValue - lastReal }

/-- The engine (`calculateInvestment`, lines 3-324): run the mode strategy,
then the shared post-processing. -/
def calculateInvestment (mode : CalculatorMode) (inp : InvestmentInputs) :
    Option CalculationResult :=
  (runStrategy mode inp).map
    (assemble mode (inp.taxRate.getD 0) (effRate inp)
      (durationOf mode inp.currentAge inp.retirementAge inp.timePeriodYears))

/-- The `cagr` field (lines 299-302): defined only when the invested amount,
the final value and the duration are positive, else 0.  It is a real root,
so it lives in ℝ; the `isFinite` coercion of line 319 is the identity here,
a real power of a positive real being a (finite) real number. -/
noncomputable def cagrOf (totalInvested finalValue : ℚ) (duration : ℕ) : ℝ :=
  if 0 < totalInvested ∧ 0 < finalValue ∧ 0 < duration then
    (((finalValue : ℝ) / (totalInvested : ℝ)) ^ ((1 : ℝ) / (duration : ℝ)) - 1) * 100
  else 0

/-- The guard of `cagrOf`: outside the positivity guard the CAGR is exactly 0,
matching the spec sentence that CAGR is 0 whenever an operand is not positive. -/
theorem cagrOf_eq_zero (totalInvested finalValue : ℚ) (duration : ℕ)
    (h : ¬(0 < totalInvested ∧ 0 < finalValue ∧ 0 < duration)) :
    cagrOf totalInvested finalValue duration = 0 := by
  simp [cagrOf, h]

/-- A rational is a whole number when it is the cast of an integer. -/
def isWholeNumber (q : ℚ) : Prop := ∃ z : ℤ, q = (z : ℚ)

/-- Rounding always yields a whole number. -/
theorem jround_isWholeNumber (q : ℚ) : isWholeNumber (jround q) := ⟨⌊q + 1/2⌋, rfl⟩

/-- Rounding a nonnegative rational yields a nonnegative value. -/
theorem jround_nonneg {q : ℚ} (h : 0 ≤ q) : 0 ≤ jround q := by
  unfold jround
  have : (0 : ℤ) ≤ ⌊q + 1/2⌋ := by
    rw [Int.le_floor]
    push_cast
    linarith
  exact_mod_cast this

/-- Rounding moves a value by at most a half unit. -/
theorem abs_jround_sub_le_half (q : ℚ) : |jround q - q| ≤ 1/2 := by
  unfold jround
  have h1 : (⌊q + 1/2⌋ : ℚ) ≤ q + 1/2 := Int.floor_le _
  have h2 : q + 1/2 < (⌊q + 1/2⌋ : ℚ) + 1 := Int.lt_floor_add_one _
  rw [abs_le]
  constructor <;> linarith

/-- The rounded difference and the difference of the rounded values agree
within one unit. -/
theorem jround_sub_bound (a b : ℚ) : |jround (a - b) - (jround a - jround b)| ≤ 1 := by
  unfold jround
  have h1 : (⌊a + 1/2⌋ : ℚ) ≤ a + 1/2 := Int.floor_le _
  have h2 : a + 1/2 < (⌊a + 1/2⌋ : ℚ) + 1 := Int.lt_floor_add_one _
  have h3 : (⌊b + 1/2⌋ : ℚ) ≤ b + 1/2 := Int.floor_le _
  have h4 : b + 1/2 < (⌊b + 1/2⌋ : ℚ) + 1 := Int.lt_floor_add_one _
  have h5 : (⌊a - b + 1/2⌋ : ℚ) ≤ a - b + 1/2 := Int.floor_le _
  have h6 : a - b + 1/2 < (⌊a - b + 1/2⌋ : ℚ) + 1 := Int.lt_floor_add_one _
  have hz1 : ⌊a - b + 1/2⌋ - ⌊a + 1/2⌋ + ⌊b + 1/2⌋ ≤ 1 := by
    by_contra hc
    push_neg at hc
    have : (2 : ℚ) ≤ ((⌊a - b + 1/2⌋ - ⌊a + 1/2⌋ + ⌊b + 1/2⌋ : ℤ) : ℚ) := by
      exact_mod_cast hc
    push_cast at this
    linarith
  have hz2 : (-1 : ℤ) ≤ ⌊a - b + 1/2⌋ - ⌊a + 1/2⌋ + ⌊b + 1/2⌋ := by
    by_contra hc
    push_neg at hc
    have hc2 : ⌊a - b + 1/2⌋ - ⌊a + 1/2⌋ + ⌊b + 1/2⌋ ≤ -2 := by omega
    have : ((⌊a - b + 1/2⌋ - ⌊a + 1/2⌋ + ⌊b + 1/2⌋ : ℤ) : ℚ) ≤ ((-2 : ℤ) : ℚ) := by
      exact_mod_cast hc2
    push_cast at this
    linarith
  rw [abs_le]
  constructor
  · have : ((-1 : ℤ) : ℚ) ≤ ((⌊a - b + 1/2⌋ - ⌊a + 1/2⌋ + ⌊b + 1/2⌋ : ℤ) : ℚ) := by
      exact_mod_cast hz2
    push_cast at this
    linarith
  · have : ((⌊a - b + 1/2⌋ - ⌊a + 1/2⌋ + ⌊b + 1/2⌋ : ℤ) : ℚ) ≤ ((1 : ℤ) : ℚ) := by
      exact_mod_cast hz1
    push_cast at this
    linarith

/-- Unfolding of a successful engine run into its strategy output and the
shared post-processing. -/
theorem calculateInvestment_eq_some {mode : CalculatorMode} {inp : InvestmentInputs}
    {res : CalculationResult} (h : calculateInvestment mode inp = some res) :
    ∃ out, runStrategy mode inp = some out ∧
      res = assemble mode (inp.taxRate.getD 0) (effRate inp)
        (durationOf mode inp.currentAge inp.retirementAge inp.timePeriodYears) out := by
  unfold calculateInvestment at h
  obtain ⟨out, h1, h2⟩ := Option.map_eq_some'.mp h
  exact ⟨out, h1, h2.symm⟩

/-- The gain-based tax of the shared post-processing is nonnegative for a
nonnegative tax rate. -/
theorem gainTax_nonneg {p : Prop} [Decidable p] (I F τ : ℚ) (hp : p → I ≤ F) (hτ : 0 ≤ τ) :
    0 ≤ (if p then (F - I) * (τ / 100) else 0) := by
  split
  next h => exact mul_nonneg (by linarith [hp h]) (div_nonneg hτ (by norm_num))
  next => exact le_refl 0

/-- A ROI-mode input with a fractional investment: initial 1/2, sold at 7/5. -/
def inpC1 : InvestmentInputs :=
  { timePeriodYears := 1, interestRate := 0,
    initialInvestment := some (1/2), sellPrice := some (7/5) }

/-- C1 fails as stated: in ROI mode with investment 1/2 and sell price 7/5 the
returned record has totalInterest = round(9/10) = 1 while
finalValue - totalInvested = round(7/5) - round(1/2) = 1 - 1 = 0. -/
theorem claim1_counterexample :
    ∃ res, calculateInvestment CalculatorMode.ROI inpC1 = some res ∧
      res.totalInterest ≠ res.finalValue - res.totalInvested := by
  have h1 : (calculateInvestment CalculatorMode.ROI inpC1).map
      (fun r => (r.totalInterest, r.finalValue, r.totalInvested)) = some (1, 1, 1) := by
    norm_num [calculateInvestment, runStrategy, roiRun, buildRows, effRate, durationOf,
      jsOr, cdiv, jround, assemble, inpC1]
  cases hcalc : calculateInvestment CalculatorMode.ROI inpC1 with
  | none => rw [hcalc] at h1; simp at h1
  | some res =>
      rw [hcalc] at h1
      simp only [Option.map_some', Option.some.injEq, Prod.mk.injEq] at h1
      refine ⟨res, rfl, ?_⟩
      rw [h1.1, h1.2.1, h1.2.2]
      norm_num

/-- C1 amended: the engine stores totalInterest as the rounding of the raw
difference, so on the rounded fields as returned the identity holds within
one currency unit for every mode and input. -/
theorem claim1_totalInterest_within_one (mode : CalculatorMode) (inp : InvestmentInputs)
    (res : CalculationResult) (h : calculateInvestment mode inp = some res) :
    |res.totalInterest - (res.finalValue - res.totalInvested)| ≤ 1 := by
  obtain ⟨out, _, rfl⟩ := calculateInvestment_eq_some h
  simpa only [assemble] using jround_sub_bound out.finalValue out.totalInvested

/-- A TAX-mode input used to witness C1's amended bound. -/
def inpC1w : InvestmentInputs :=
  { timePeriodYears := 1, interestRate := 0, taxRate := some 15,
    annualIncome := some 60000, deductions := some 5000 }

/-- Witness for the amended C1 at a concrete TAX input. -/
theorem claim1_totalInterest_within_one_witness :
    ∃ res, calculateInvestment CalculatorMode.TAX inpC1w = some res ∧
      |res.totalInterest - (res.finalValue - res.totalInvested)| ≤ 1 := by
  obtain ⟨res, hres⟩ := Option.isSome_iff_exists.mp
    (show (calculateInvestment CalculatorMode.TAX inpC1w).isSome = true by
      norm_num [calculateInvestment, runStrategy, taxRun, effRate, durationOf,
        jsOr, cdiv, jround, assemble, inpC1w])
  exact ⟨res, hres, claim1_totalInterest_within_one CalculatorMode.TAX inpC1w res hres⟩

/-- C6: TAX mode computes the taxable income floored at 0, the flat tax, the
net final value; the returned taxPayable is the (rounded) tax itself and
postTaxValue coincides with finalValue. -/
theorem claim6_tax_mode (inp : InvestmentInputs) (res : CalculationResult)
    (h : calculateInvestment CalculatorMode.TAX inp = some res) :
    res.finalValue = jround (jsOr inp.annualIncome 0 -
      max 0 (jsOr inp.annualIncome 0 - jsOr inp.deductions 0) * (inp.taxRate.getD 0 / 100)) ∧
    res.taxPayable = jround
      (max 0 (jsOr inp.annualIncome 0 - jsOr inp.deductions 0) * (inp.taxRate.getD 0 / 100)) ∧
    res.postTaxValue = res.finalValue := by
  obtain ⟨out, hout, rfl⟩ := calculateInvestment_eq_some h
  simp only [runStrategy, Option.some.injEq] at hout
  subst hout
  refine ⟨rfl, ?_, ?_⟩
  · simp [assemble, taxRun, sub_sub_cancel]
  · simp [assemble, taxRun]

/-- The TAX input of the spec's worked example: income 60000, deductions 5000,
rate 15 percent. -/
def inpC6 : InvestmentInputs :=
  { timePeriodYears := 1, interestRate := 0, taxRate := some 15,
    annualIncome := some 60000, deductions := some 5000 }

/-- Witness for C6: the worked example yields tax 8250 and final value 51750. -/
theorem claim6_tax_mode_witness :
    ∃ res, calculateInvestment CalculatorMode.TAX inpC6 = some res ∧
      res.finalValue = 51750 ∧ res.taxPayable = 8250 ∧ res.postTaxValue = res.finalValue := by
  obtain ⟨res, hres⟩ := Option.isSome_iff_exists.mp
    (show (calculateInvestment CalculatorMode.TAX inpC6).isSome = true by
      norm_num [calculateInvestment, runStrategy, taxRun, effRate, durationOf,
        jsOr, cdiv, jround, assemble, inpC6])
  obtain ⟨h1, h2, h3⟩ := claim6_tax_mode inpC6 res hres
  refine ⟨res, hres, ?_, ?_, h3⟩
  · rw [h1]; norm_num [jsOr, jround, inpC6]
  · rw [h2]; norm_num [jsOr, jround, inpC6]

/-- A LUMPSUM input with a fractional principal of 1/2. -/
def inpC8 : InvestmentInputs :=
  { timePeriodYears := 1, interestRate := 0, initialInvestment := some (1/2) }

/-- C8 fails as stated: with a principal of 1/2 at rate 0 the returned
purchasingPowerLoss is 1/2 - 1 = -1/2, not a whole number (the source
computes it from the unrounded final value, line 322). -/
theorem claim8_counterexample :
    ∃ res, calculateInvestment CalculatorMode.LUMPSUM inpC8 = some res ∧
      ¬ isWholeNumber res.purchasingPowerLoss := by
  have h1 : (calculateInvestment CalculatorMode.LUMPSUM inpC8).map
      (fun r => r.purchasingPowerLoss) = some (-(1/2)) := by
    norm_num [calculateInvestment, runStrategy, lumpRun, buildRows, effRate, durationOf,
      jsOr, cdiv, jround, assemble, inpC8]
  cases hcalc : calculateInvestment CalculatorMode.LUMPSUM inpC8 with
  | none => rw [hcalc] at h1; simp at h1
  | some res =>
      rw [hcalc] at h1
      simp only [Option.map_some', Option.some.injEq] at h1
      refine ⟨res, rfl, ?_⟩
      rw [h1]
      rintro ⟨z, hz⟩
      have h2 : (2 : ℚ) * z = -1 := by rw [← hz]; ring
      have h3 : (2 : ℤ) * z = -1 := by exact_mod_cast h2
      omega

/-- C8 amended: the six monetary summary fields totalInvested, finalValue,
totalInterest, taxPayable, postTaxValue and monthlyPayment are whole
numbers for every mode and input; purchasingPowerLoss is computed from the
unrounded final value and may be fractional. -/
theorem claim8_rounded_fields (mode : CalculatorMode) (inp : InvestmentInputs)
    (res : CalculationResult) (h : calculateInvestment mode inp = some res) :
    isWholeNumber res.totalInvested ∧ isWholeNumber res.finalValue ∧
    isWholeNumber res.totalInterest ∧ isWholeNumber res.taxPayable ∧
    isWholeNumber res.postTaxValue ∧ isWholeNumber res.monthlyPayment := by
  obtain ⟨out, _, rfl⟩ := calculateInvestment_eq_some h
  exact ⟨jround_isWholeNumber _, jround_isWholeNumber _, jround_isWholeNumber _,
    jround_isWholeNumber _, jround_isWholeNumber _, jround_isWholeNumber _⟩

/-- Witness for the amended C8 at a concrete LUMPSUM input. -/
theorem claim8_rounded_fields_witness :
    ∃ res, calculateInvestment CalculatorMode.LUMPSUM inpC8 = some res ∧
      isWholeNumber res.totalInvested := by
  obtain ⟨res, hres⟩ := Option.isSome_iff_exists.mp
    (show (calculateInvestment CalculatorMode.LUMPSUM inpC8).isSome = true by
      norm_num [calculateInvestment, runStrategy, lumpRun, buildRows, effRate, durationOf,
        jsOr, cdiv, jround, assemble, inpC8])
  exact ⟨res, hres, (claim8_rounded_fields CalculatorMode.LUMPSUM inpC8 res hres).1⟩

/-- C10: for every mode and input with a nonnegative tax rate, the returned
taxPayable is nonnegative: gains are taxed only when positive, loans carry
no tax, and TAX mode taxes the income floored at the deductions. -/
theorem claim10_taxPayable_nonneg (mode : CalculatorMode) (inp : InvestmentInputs)
    (res : CalculationResult) (hτ : 0 ≤ inp.taxRate.getD 0)
    (h : calculateInvestment mode inp = some res) : 0 ≤ res.taxPayable := by
  obtain ⟨out, hout, rfl⟩ := calculateInvestment_eq_some h
  cases mode with
  | LOAN =>
      simp [assemble]
      exact jround_nonneg (le_refl 0)
  | TAX =>
      simp only [runStrategy, Option.some.injEq] at hout
      subst hout
      simp [assemble, taxRun, sub_sub_cancel]
      exact jround_nonneg
        (mul_nonneg (le_max_left 0 _) (div_nonneg hτ (by norm_num)))
  | SIP => simp [assemble]; exact jround_nonneg (gainTax_nonneg _ _ _ (fun h => le_of_lt h) hτ)
  | LUMPSUM => simp [assemble]; exact jround_nonneg (gainTax_nonneg _ _ _ (fun h => le_of_lt h) hτ)
  | STOCK => simp [assemble]; exact jround_nonneg (gainTax_nonneg _ _ _ (fun h => le_of_lt h) hτ)
  | PROPERTY => simp [assemble]; exact jround_nonneg (gainTax_nonneg _ _ _ (fun h => le_of_lt h) hτ)
  | COMPOUND => simp [assemble]; exact jround_nonneg (gainTax_nonneg _ _ _ (fun h => le_of_lt h) hτ)
  | ROI => simp [assemble]; exact jround_nonneg (gainTax_nonneg _ _ _ (fun h => le_of_lt h) hτ)
  | GOAL => simp [assemble]; exact jround_nonneg (gainTax_nonneg _ _ _ (fun h => le_of_lt h) hτ)
  | RETIREMENT => simp [assemble]; exact jround_nonneg (gainTax_nonneg _ _ _ (fun h => le_of_lt h) hτ)

/-- Number of multiples of 12 among `start, ..., start+k-1`; the rows pushed
by a monthly loop are exactly these indices. -/
def cnt12 (start k : ℕ) : ℕ := (start + k - 1) / 12 - (start - 1) / 12

/-- An empty index range holds no multiple of 12. -/
theorem cnt12_zero (start : ℕ) : cnt12 start 0 = 0 := by
  unfold cnt12; omega

/-- Peeling the first index off the range. -/
theorem cnt12_succ (start k : ℕ) (h : 1 ≤ start) :
    cnt12 start (k + 1) = (if start % 12 = 0 then 1 else 0) + cnt12 (start + 1) k := by
  unfold cnt12
  by_cases h12 : start % 12 = 0 <;> simp only [h12, if_true, if_false] <;> omega

/-- The whole-years range 1..12d holds exactly d multiples of 12. -/
theorem cnt12_full (d : ℕ) : cnt12 1 (d * 12) = d := by
  unfold cnt12; omega

/-- A monthly loop whose step pushes a row exactly at multiples of 12 grows its
row list by the number of such indices in the range. -/
theorem loopA_rows_length {σ : Type} (rowsOf : σ → List YearData) (f : ℕ → σ → Option σ)
    (hf : ∀ i s s', f i s = some s' →
      (rowsOf s').length = (rowsOf s).length + (if i % 12 = 0 then 1 else 0)) :
    ∀ k start s s', 1 ≤ start → loopA f start k s = some s' →
      (rowsOf s').length = (rowsOf s).length + cnt12 start k := by
  intro k
  induction k with
  | zero =>
      intro start s s' _ h
      simp only [loopA, Option.some.injEq] at h
      subst h
      rw [cnt12_zero]
      omega
  | succ k ih =>
      intro start s s' hstart h
      rw [show loopA f start (k + 1) s = (f start s).bind (loopA f (start + 1) k) from rfl] at h
      cases hstep : f start s with
      | none => rw [hstep] at h; simp at h
      | some s1 =>
          rw [hstep] at h
          simp only [Option.some_bind] at h
          have hih := ih (start + 1) s1 s' (by omega) h
          have hst := hf start s s1 hstep
          rw [cnt12_succ start k hstart]
          by_cases h12 : start % 12 = 0 <;> simp only [h12, if_true, if_false] at hst ⊢ <;> omega

/-- A yearly loop whose step pushes one row per index grows its row list by
the index count. -/
theorem loopA_rows_one {σ : Type} (rowsOf : σ → List YearData) (f : ℕ → σ → Option σ)
    (hf : ∀ i s s', f i s = some s' → (rowsOf s').length = (rowsOf s).length + 1) :
    ∀ k start s s', loopA f start k s = some s' →
      (rowsOf s').length = (rowsOf s).length + k := by
  intro k
  induction k with
  | zero =>
      intro start s s' h
      simp only [loopA, Option.some.injEq] at h
      subst h
      rfl
  | succ k ih =>
      intro start s s' h
      rw [show loopA f start (k + 1) s = (f start s).bind (loopA f (start + 1) k) from rfl] at h
      cases hstep : f start s with
      | none => rw [hstep] at h; simp at h
      | some s1 =>
          rw [hstep] at h
          simp only [Option.some_bind] at h
          have hih := ih (start + 1) s1 s' h
          have hst := hf start s s1 hstep
          omega

/-- A successful `buildRows` yields exactly one row per year. -/
theorem buildRows_length (mk : ℕ → Option YearData) :
    ∀ t l, buildRows mk t = some l → l.length = t := by
  intro t
  induction t with
  | zero =>
      intro l h
      simp only [buildRows, Option.some.injEq] at h
      subst h
      rfl
  | succ t ih =>
      intro l h
      rw [show buildRows mk (t + 1) = (buildRows mk t).bind
        (fun rows => (mk (t + 1)).bind (fun row => some (rows ++ [row]))) from rfl] at h
      cases hr : buildRows mk t with
      | none => rw [hr] at h; simp at h
      | some rows =>
          rw [hr] at h
          simp only [Option.some_bind] at h
          cases hm : mk (t + 1) with
          | none => rw [hm] at h; simp at h
          | some row =>
              rw [hm] at h
              simp only [Option.some_bind, Option.some.injEq] at h
              subst h
              simp [ih rows hr]

/-- The SIP step pushes a row exactly at multiples of 12. -/
theorem sipStep_rows (stepUpRate inflationRate : ℚ) (startYear : ℤ) (monthlyRate : ℚ)
    (i : ℕ) (s s' : MonthlyState) (h : sipStep stepUpRate inflationRate startYear monthlyRate i s = some s') :
    s'.rows.length = s.rows.length + (if i % 12 = 0 then 1 else 0) := by
  unfold sipStep at h
  by_cases h12 : i % 12 = 0
  · simp only [h12, if_true, Option.map_eq_some'] at h
    obtain ⟨rv, _, heq⟩ := h
    subst heq
    simp [h12]
  · simp only [h12, if_false, Option.some.injEq] at h
    subst h
    simp [h12]

/-- The GOAL step pushes a row exactly at multiples of 12. -/
theorem goalStep_rows (inflationRate : ℚ) (startYear : ℤ) (ratePerMonth monthlyPayment : ℚ)
    (i : ℕ) (s s' : MonthlyState)
    (h : goalStep inflationRate startYear ratePerMonth monthlyPayment i s = some s') :
    s'.rows.length = s.rows.length + (if i % 12 = 0 then 1 else 0) := by
  unfold goalStep at h
  by_cases h12 : i % 12 = 0
  · simp only [h12, if_true, Option.map_eq_some'] at h
    obtain ⟨rv, _, heq⟩ := h
    subst heq
    simp [h12]
  · simp only [h12, if_false, Option.some.injEq] at h
    subst h
    simp [h12]

/-- The PROPERTY step pushes one row per year. -/
theorem propStep_rows (pPrice yearlyNetRent appRate inflationRate : ℚ) (startYear : ℤ)
    (i : ℕ) (s s' : PropState)
    (h : propStep pPrice yearlyNetRent appRate inflationRate startYear i s = some s') :
    s'.rows.length = s.rows.length + 1 := by
  unfold propStep at h
  simp only [Option.map_eq_some'] at h
  obtain ⟨rv, _, heq⟩ := h
  subst heq
  simp

/-- A RETIREMENT input with a supplied current age of 0: the source's
truthiness test `if (currentAge && retirementAge)` treats the zero age as
missing and keeps `timePeriodYears` as the duration. -/
def inpC5 : InvestmentInputs :=
  { timePeriodYears := 1, interestRate := 0, currentAge := some 0, retirementAge := some 60 }

/-- C5 fails as stated: both ages are supplied (0 and 60), so the claimed
effective duration is max(1, 60 - 0) = 60 rows, but the engine produces a
single row because the zero age is falsy. -/
theorem claim5_counterexample :
    inpC5.currentAge = some 0 ∧ inpC5.retirementAge = some 60 ∧
    (max 1 ((60 : ℤ) - 0)).toNat = 60 ∧
    ∃ res, calculateInvestment CalculatorMode.RETIREMENT inpC5 = some res ∧
      res.yearlyData.length = 1 := by
  refine ⟨rfl, rfl, by decide, ?_⟩
  have h1 : (calculateInvestment CalculatorMode.RETIREMENT inpC5).map
      (fun r => r.yearlyData.length) = some 1 := by
    norm_num [calculateInvestment, runStrategy, sipRun, sipStep, loopA, effRate, durationOf,
      jsOr, cdiv, jround, assemble, inpC5]
  cases hcalc : calculateInvestment CalculatorMode.RETIREMENT inpC5 with
  | none => rw [hcalc] at h1; simp at h1
  | some res =>
      rw [hcalc] at h1
      simp only [Option.map_some', Option.some.injEq] at h1
      exact ⟨res, rfl, h1⟩

/-- C5 amended: the schedule length equals the effective duration (1 for TAX
mode), where the RETIREMENT override applies only when both ages are
supplied and nonzero, as encoded in `durationOf`. -/
theorem claim5_schedule_length (mode : CalculatorMode) (inp : InvestmentInputs)
    (res : CalculationResult) (h : calculateInvestment mode inp = some res) :
    res.yearlyData.length =
      if mode = CalculatorMode.TAX then 1
      else durationOf mode inp.currentAge inp.retirementAge inp.timePeriodYears := by
  obtain ⟨out, hout, rfl⟩ := calculateInvestment_eq_some h
  cases mode with
  | SIP =>
      simp only [runStrategy, sipRun, Option.bind_eq_bind', Option.bind_eq_some,
        Option.pure_def, Option.some.injEq] at hout
      obtain ⟨s, hs, hout⟩ := hout
      subst hout
      have hlen := loopA_rows_length MonthlyState.rows _
        (fun i s s' hh => sipStep_rows _ _ _ _ i s s' hh)
        (durationOf CalculatorMode.SIP inp.currentAge inp.retirementAge inp.timePeriodYears * 12)
        1 _ s (by norm_num) hs
      simp only [assemble]
      simpa [cnt12_full] using hlen
  | RETIREMENT =>
      simp only [runStrategy, sipRun, Option.bind_eq_bind', Option.bind_eq_some,
        Option.pure_def, Option.some.injEq] at hout
      obtain ⟨s, hs, hout⟩ := hout
      subst hout
      have hlen := loopA_rows_length MonthlyState.rows _
        (fun i s s' hh => sipStep_rows _ _ _ _ i s s' hh)
        (durationOf CalculatorMode.RETIREMENT inp.currentAge inp.retirementAge inp.timePeriodYears * 12)
        1 _ s (by norm_num) hs
      simp only [assemble]
      simpa [cnt12_full] using hlen
  | GOAL =>
      simp only [runStrategy, goalRun, Option.bind_eq_bind', Option.bind_eq_some,
        Option.pure_def, Option.some.injEq] at hout
      obtain ⟨pmt, _, s, hs, hout⟩ := hout
      subst hout
      have hlen := loopA_rows_length MonthlyState.rows _
        (fun i s s' hh => goalStep_rows _ _ _ _ i s s' hh)
        (durationOf CalculatorMode.GOAL inp.currentAge inp.retirementAge inp.timePeriodYears * 12)
        1 _ s (by norm_num) hs
      simp only [assemble]
      simpa [cnt12_full] using hlen
  | LUMPSUM =>
      simp only [runStrategy, lumpRun, Option.bind_eq_bind', Option.bind_eq_some,
        Option.pure_def, Option.some.injEq] at hout
      obtain ⟨rate, _, rows, hrows, hout⟩ := hout
      subst hout
      simp only [assemble]
      simpa using buildRows_length _ _ rows hrows
  | COMPOUND =>
      simp only [runStrategy, lumpRun, Option.bind_eq_bind', Option.bind_eq_some,
        Option.pure_def, Option.some.injEq] at hout
      obtain ⟨rate, _, rows, hrows, hout⟩ := hout
      subst hout
      simp only [assemble]
      simpa using buildRows_length _ _ rows hrows
  | LOAN =>
      simp only [runStrategy, loanRun, Option.bind_eq_bind', Option.bind_eq_some,
        Option.pure_def, Option.some.injEq] at hout
      obtain ⟨emi, _, rows, hrows, hout⟩ := hout
      subst hout
      simp only [assemble]
      simpa using buildRows_length _ _ rows hrows
  | STOCK =>
      simp only [runStrategy, stockRun, Option.bind_eq_bind', Option.bind_eq_some,
        Option.pure_def, Option.some.injEq] at hout
      obtain ⟨rows, hrows, hout⟩ := hout
      subst hout
      simp only [assemble]
      simpa using buildRows_length _ _ rows hrows
  | ROI =>
      simp only [runStrategy, roiRun, Option.bind_eq_bind', Option.bind_eq_some,
        Option.pure_def, Option.some.injEq] at hout
      obtain ⟨rows, hrows, hout⟩ := hout
      subst hout
      simp only [assemble]
      simpa using buildRows_length _ _ rows hrows
  | PROPERTY =>
      simp only [runStrategy, propertyRun, Option.bind_eq_bind', Option.bind_eq_some,
        Option.pure_def, Option.some.injEq] at hout
      obtain ⟨s, hs, hout⟩ := hout
      subst hout
      have hlen := loopA_rows_one PropState.rows _
        (fun i s s' hh => propStep_rows _ _ _ _ _ i s s' hh)
        (durationOf CalculatorMode.PROPERTY inp.currentAge inp.retirementAge inp.timePeriodYears)
        1 _ s hs
      simp only [assemble]
      simpa using hlen
  | TAX =>
      simp only [runStrategy, Option.some.injEq] at hout
      subst hout
      simp [assemble, taxRun]

/-- A one-year SIP input used to witness the amended C5. -/
def inpC5w : InvestmentInputs :=
  { timePeriodYears := 1, interestRate := 0, monthlyContribution := some 500 }

/-- Witness for the amended C5: a one-year SIP schedule has exactly one row. -/
theorem claim5_schedule_length_witness :
    ∃ res, calculateInvestment CalculatorMode.SIP inpC5w = some res ∧
      res.yearlyData.length = 1 := by
  obtain ⟨res, hres⟩ := Option.isSome_iff_exists.mp
    (show (calculateInvestment CalculatorMode.SIP inpC5w).isSome = true by
      norm_num [calculateInvestment, runStrategy, sipRun, sipStep, loopA, effRate, durationOf,
        jsOr, cdiv, jround, assemble, inpC5w])
  refine ⟨res, hres, ?_⟩
  have := claim5_schedule_length CalculatorMode.SIP inpC5w res hres
  simpa [durationOf, inpC5w] using this

/-- C9: the GOAL branch never reads stepUpRate — two GOAL inputs differing
only in stepUpRate produce identical results (the solved payment is level,
even though the SIP schedule construction it mirrors applies the step-up). -/
theorem claim9_goal_stepup_noninterference (inp : InvestmentInputs) (s₁ s₂ : Option ℚ) :
    calculateInvestment CalculatorMode.GOAL { inp with stepUpRate := s₁ } =
      calculateInvestment CalculatorMode.GOAL { inp with stepUpRate := s₂ } := rfl

/-- A zero-rate one-year loan of 1200. -/
def inpC2 : InvestmentInputs :=
  { timePeriodYears := 1, interestRate := 0, initialInvestment := some 1200 }

/-- C2's failing input: a zero-rate LOAN.  The EMI branch special-cases the
zero rate (line 165), but the per-year balance of line 176 still divides by
`(1+r)^N - 1 = 0` (a 0/0, i.e. NaN, in the source), so every LOAN schedule
row of a zero-rate loan is non-finite; the checked model returns `none`. -/
theorem claim2_zero_rate_loan_nonfinite :
    calculateInvestment CalculatorMode.LOAN inpC2 = none ∧
    ((1 : ℚ) + (0 : ℚ) / 12 / 100) ^ (12 : ℕ) - 1 = 0 := by
  constructor
  · norm_num [calculateInvestment, runStrategy, loanRun, loanEMI, buildRows, effRate,
      durationOf, cdiv, jround, assemble, inpC2]
  · norm_num

/-- A zero-rate one-year loan of 600. -/
def inpC7 : InvestmentInputs :=
  { timePeriodYears := 1, interestRate := 0, initialInvestment := some 600 }

/-- A 12-percent one-year loan of 1200. -/
def inpC7pos : InvestmentInputs :=
  { timePeriodYears := 1, interestRate := 12, initialInvestment := some 1200 }

/-- C7's failing input: at a zero rate the EMI branch itself returns
P/N = 600/12 = 50 as the claim says, but the schedule-row division
0/0 makes every row non-finite, so the final row's total is NaN rather
than 0; at a positive rate the final row's outstanding total is 0. -/
theorem claim7_loan_zero_rate_bug :
    loanEMI 600 0 12 = some 50 ∧
    calculateInvestment CalculatorMode.LOAN inpC7 = none ∧
    ∃ res, calculateInvestment CalculatorMode.LOAN inpC7pos = some res ∧
      res.yearlyData.getLast?.map YearData.total = some 0 := by
  refine ⟨by norm_num [loanEMI, cdiv], ?_, ?_⟩
  · norm_num [calculateInvestment, runStrategy, loanRun, loanEMI, buildRows, effRate,
      durationOf, cdiv, jround, assemble, inpC7]
  · have h1 : (calculateInvestment CalculatorMode.LOAN inpC7pos).map
        (fun r => r.yearlyData.getLast?.map YearData.total) = some (some 0) := by
      norm_num [calculateInvestment, runStrategy, loanRun, loanEMI, buildRows, effRate,
        durationOf, cdiv, jround, assemble, inpC7pos]
    cases hcalc : calculateInvestment CalculatorMode.LOAN inpC7pos with
    | none => rw [hcalc] at h1; simp at h1
    | some res =>
        rw [hcalc] at h1
        simp only [Option.map_some', Option.some.injEq] at h1
        exact ⟨res, rfl, h1⟩

/-- The GOAL step advances the balance by one month of interest plus the level
payment, adds the payment to the invested total, and preserves `contrib`. -/
theorem goalStep_state (inflationRate : ℚ) (startYear : ℤ) (ratePerMonth monthlyPayment : ℚ)
    (i : ℕ) (s s' : MonthlyState)
    (h : goalStep inflationRate startYear ratePerMonth monthlyPayment i s = some s') :
    s'.balance = s.balance * (1 + ratePerMonth) + monthlyPayment ∧
    s'.invested = s.invested + monthlyPayment ∧ s'.contrib = s.contrib := by
  unfold goalStep at h
  by_cases h12 : i % 12 = 0
  · simp only [h12, if_true, Option.map_eq_some'] at h
    obtain ⟨rv, _, heq⟩ := h
    subst heq
    exact ⟨rfl, rfl, rfl⟩
  · simp only [h12, if_false, Option.some.injEq] at h
    subst h
    exact ⟨rfl, rfl, rfl⟩

/-- Closed form of the GOAL loop balance: after k months the balance is the
compounded opening balance plus the payment times the annuity factor. -/
theorem goal_loop_balance (inflationRate : ℚ) (startYear : ℤ) (ratePerMonth monthlyPayment : ℚ) :
    ∀ k start s s',
      loopA (goalStep inflationRate startYear ratePerMonth monthlyPayment) start k s = some s' →
      s'.balance = s.balance * (1 + ratePerMonth) ^ k +
        monthlyPayment * ∑ j ∈ Finset.range k, (1 + ratePerMonth) ^ j := by
  intro k
  induction k with
  | zero =>
      intro start s s' h
      simp only [loopA, Option.some.injEq] at h
      subst h
      simp
  | succ k ih =>
      intro start s s' h
      rw [show loopA (goalStep inflationRate startYear ratePerMonth monthlyPayment) start (k + 1) s =
        (goalStep inflationRate startYear ratePerMonth monthlyPayment start s).bind
          (loopA (goalStep inflationRate startYear ratePerMonth monthlyPayment) (start + 1) k) from rfl] at h
      cases hstep : goalStep inflationRate startYear ratePerMonth monthlyPayment start s with
      | none => rw [hstep] at h; simp at h
      | some s1 =>
          rw [hstep] at h
          simp only [Option.some_bind] at h
          have hb := (goalStep_state _ _ _ _ _ _ _ hstep).1
          rw [ih (start + 1) s1 s' h, hb, Finset.sum_range_succ]
          ring

/-- With a zero step-up rate the SIP step coincides with the GOAL step driven
by the state's own contribution. -/
theorem sipStep_zero_eq (inflationRate : ℚ) (startYear : ℤ) (monthlyRate : ℚ)
    (i : ℕ) (s : MonthlyState) :
    sipStep 0 inflationRate startYear monthlyRate i s =
      goalStep inflationRate startYear monthlyRate s.contrib i s := by
  unfold sipStep goalStep
  norm_num

/-- The zero-step-up SIP loop and the GOAL loop with the same level payment
run through identical states. -/
theorem loopA_sip_goal (inflationRate : ℚ) (startYear : ℤ) (monthlyRate pmt : ℚ) :
    ∀ k start s, s.contrib = pmt →
      loopA (sipStep 0 inflationRate startYear monthlyRate) start k s =
        loopA (goalStep inflationRate startYear monthlyRate pmt) start k s := by
  intro k
  induction k with
  | zero => intro start s _; rfl
  | succ k ih =>
      intro start s hc
      rw [show loopA (sipStep 0 inflationRate startYear monthlyRate) start (k + 1) s =
            (sipStep 0 inflationRate startYear monthlyRate start s).bind
              (loopA (sipStep 0 inflationRate startYear monthlyRate) (start + 1) k) from rfl,
          show loopA (goalStep inflationRate startYear monthlyRate pmt) start (k + 1) s =
            (goalStep inflationRate startYear monthlyRate pmt start s).bind
              (loopA (goalStep inflationRate startYear monthlyRate pmt) (start + 1) k) from rfl,
          sipStep_zero_eq, hc]
      cases hstep : goalStep inflationRate startYear monthlyRate pmt start s with
      | none => rfl
      | some s1 =>
          simp only [Option.some_bind]
          exact ih (start + 1) s1 (((goalStep_state _ _ _ _ _ _ _ hstep).2.2).trans hc)

/-- A successful GOAL run with a positive remaining target hits the target
exactly: the raw final balance equals the target before rounding. -/
theorem goalRun_finalValue (initialInvestment target inflationRate : ℚ) (startYear : ℤ)
    (ratePerMonth : ℚ) (months : ℕ) (out : StrategyOut)
    (h : goalRun initialInvestment target inflationRate startYear ratePerMonth months = some out)
    (hpos : 0 < target - initialInvestment * (1 + ratePerMonth) ^ months) :
    out.finalValue = target := by
  simp only [goalRun, Option.bind_eq_bind', Option.bind_eq_some, Option.pure_def,
    Option.some.injEq] at h
  obtain ⟨pmt, hpmt, s, hs, hout⟩ := h
  subst hout
  have hbal := goal_loop_balance inflationRate startYear ratePerMonth pmt months 1 _ s hs
  unfold goalSolvedPMT at hpmt
  rw [if_neg (by linarith :
    ¬ (target - initialInvestment * (1 + ratePerMonth) ^ months ≤ 0))] at hpmt
  by_cases hz : ratePerMonth = 0
  · rw [if_pos hz] at hpmt
    unfold cdiv at hpmt
    by_cases hn : ((months : ℕ) : ℚ) = 0
    · rw [if_pos hn] at hpmt
      exact absurd hpmt (by simp)
    · rw [if_neg hn] at hpmt
      simp only [Option.some.injEq] at hpmt
      subst hz
      show s.balance = target
      rw [hbal, ← hpmt]
      simp only [add_zero, one_pow, Finset.sum_const, Finset.card_range, nsmul_eq_mul, mul_one]
      rw [div_mul_cancel₀ _ hn]
      ring
  · rw [if_neg hz] at hpmt
    unfold cdiv at hpmt
    by_cases hd : (1 + ratePerMonth) ^ months - 1 = 0
    · rw [if_pos hd] at hpmt
      exact absurd hpmt (by simp)
    · rw [if_neg hd] at hpmt
      simp only [Option.some.injEq] at hpmt
      show s.balance = target
      rw [hbal, ← hpmt]
      rw [geom_sum_eq (by intro hx; exact hz (by linarith) : (1 + ratePerMonth) ≠ 1) months]
      rw [show (1 + ratePerMonth - 1) = ratePerMonth from by ring]
      field_simp

/-- The GOAL branch's monthly rate (line 98): the effective rate over 1200. -/
def goalRatePerMonth (inp : InvestmentInputs) : ℚ := effRate inp / 100 / 12

/-- The GOAL branch's month count (line 50): twelve per year. -/
def goalMonths (inp : InvestmentInputs) : ℕ := inp.timePeriodYears * 12

/-- The GOAL branch's remaining target (lines 101-102): the target minus the
lump sum compounded at the monthly rate over the whole duration. -/
def goalRemaining (inp : InvestmentInputs) : ℚ :=
  goalTarget inp.targetAmount -
    inp.initialInvestment.getD 0 * (1 + goalRatePerMonth inp) ^ goalMonths inp

/-- In GOAL mode the effective duration is the input duration. -/
theorem durationOf_goal (c r : Option ℤ) (t : ℕ) :
    durationOf CalculatorMode.GOAL c r t = t := rfl

/-- C3: GOAL-mode round-trip.  When the remaining target is positive the
returned finalValue is the rounded target (so it is within half a unit of
the target), and feeding the solved payment back into the SIP strategy with
a zero step-up reproduces the same finalValue; at a zero monthly rate the
solved payment is the remaining target over the number of months, and when
the compounded lump sum already meets the target the solved payment is 0. -/
theorem claim3_goal_roundtrip (inp : InvestmentInputs) (res : CalculationResult) (T : ℚ)
    (hT : inp.targetAmount = some T) (hT0 : T ≠ 0)
    (h : calculateInvestment CalculatorMode.GOAL inp = some res) :
    (0 < goalRemaining inp →
      res.finalValue = jround T ∧ |res.finalValue - T| ≤ 1/2 ∧
      (∀ pmt, goalSolvedPMT T (inp.initialInvestment.getD 0) (goalRatePerMonth inp)
          (goalMonths inp) = some pmt →
        ∃ res', calculateInvestment CalculatorMode.SIP
            { inp with monthlyContribution := some pmt, stepUpRate := some 0 } = some res' ∧
          res'.finalValue = res.finalValue)) ∧
    (∀ pmt, goalRatePerMonth inp = 0 →
      goalSolvedPMT T (inp.initialInvestment.getD 0) (goalRatePerMonth inp)
        (goalMonths inp) = some pmt →
      0 < goalRemaining inp → pmt = goalRemaining inp / ((goalMonths inp : ℕ) : ℚ)) ∧
    (goalRemaining inp ≤ 0 →
      goalSolvedPMT T (inp.initialInvestment.getD 0) (goalRatePerMonth inp)
        (goalMonths inp) = some 0) := by
  have hTgt : goalTarget inp.targetAmount = T := by
    rw [hT]
    simp [goalTarget, jsOr, hT0]
  have hrem : goalRemaining inp =
      T - inp.initialInvestment.getD 0 * (1 + goalRatePerMonth inp) ^ goalMonths inp := by
    unfold goalRemaining
    rw [hTgt]
  refine ⟨?_, ?_, ?_⟩
  · intro hpos
    obtain ⟨out, hout, rfl⟩ := calculateInvestment_eq_some h
    simp only [runStrategy] at hout
    rw [hTgt] at hout
    rw [show durationOf CalculatorMode.GOAL inp.currentAge inp.retirementAge
          inp.timePeriodYears * 12 = goalMonths inp from rfl] at hout
    rw [show effRate inp / 100 / 12 = goalRatePerMonth inp from rfl] at hout
    have hfv := goalRun_finalValue _ T _ _ _ _ _ hout (by rw [hrem] at hpos; exact hpos)
    have hfv2 : (assemble CalculatorMode.GOAL (inp.taxRate.getD 0) (effRate inp)
        (durationOf CalculatorMode.GOAL inp.currentAge inp.retirementAge
          inp.timePeriodYears) out).finalValue = jround T := by
      show jround out.finalValue = jround T
      rw [hfv]
    refine ⟨hfv2, by rw [hfv2]; exact abs_jround_sub_le_half T, ?_⟩
    intro pmt hpmt
    simp only [goalRun, Option.bind_eq_bind', Option.bind_eq_some, Option.pure_def,
      Option.some.injEq] at hout
    obtain ⟨pmt₀, hpmt₀, st, hst, hout_eq⟩ := hout
    have hpe : pmt₀ = pmt := Option.some.inj (hpmt₀.symm.trans hpmt)
    subst hpe
    subst hout_eq
    refine ⟨assemble CalculatorMode.SIP
        ({ inp with monthlyContribution := some pmt₀, stepUpRate := some 0 }.taxRate.getD 0)
        (effRate { inp with monthlyContribution := some pmt₀, stepUpRate := some 0 })
        (durationOf CalculatorMode.SIP inp.currentAge inp.retirementAge inp.timePeriodYears)
        ⟨st.invested, st.balance, st.rows, 0, 0⟩, ?_, rfl⟩
    show (runStrategy CalculatorMode.SIP
        { inp with monthlyContribution := some pmt₀, stepUpRate := some 0 }).map _ = _
    have hrun : runStrategy CalculatorMode.SIP
        { inp with monthlyContribution := some pmt₀, stepUpRate := some 0 } =
        some ⟨st.invested, st.balance, st.rows, 0, 0⟩ := by
      show sipRun (inp.initialInvestment.getD 0) pmt₀ 0 (inp.inflationRate.getD 0)
        (inp.startYear.getD currentFullYear) (goalRatePerMonth inp) (goalMonths inp) =
        some ⟨st.invested, st.balance, st.rows, 0, 0⟩
      unfold sipRun
      rw [show (loopA (sipStep 0 (inp.inflationRate.getD 0) (inp.startYear.getD currentFullYear)
            (goalRatePerMonth inp)) 1 (goalMonths inp)
            ⟨inp.initialInvestment.getD 0, inp.initialInvestment.getD 0, pmt₀, []⟩) =
          (loopA (goalStep (inp.inflationRate.getD 0) (inp.startYear.getD currentFullYear)
            (goalRatePerMonth inp) pmt₀) 1 (goalMonths inp)
            ⟨inp.initialInvestment.getD 0, inp.initialInvestment.getD 0, pmt₀, []⟩) from
          loopA_sip_goal _ _ _ _ _ _ _ rfl]
      rw [hst]
      rfl
    rw [hrun]
    rfl
  · intro pmt hz hpmt hpos
    unfold goalSolvedPMT at hpmt
    rw [if_neg (by rw [hrem] at hpos; linarith), if_pos hz] at hpmt
    unfold cdiv at hpmt
    by_cases hn : ((goalMonths inp : ℕ) : ℚ) = 0
    · rw [if_pos hn] at hpmt
      exact absurd hpmt (by simp)
    · rw [if_neg hn] at hpmt
      simp only [Option.some.injEq] at hpmt
      rw [← hpmt, hrem]
  · intro hle
    unfold goalSolvedPMT
    rw [if_pos (by rw [hrem] at hle; exact hle)]

/-- A one-year zero-rate GOAL input with target 1200. -/
def inpC3 : InvestmentInputs :=
  { timePeriodYears := 1, interestRate := 0, targetAmount := some 1200 }

/-- Witness for C3: the solved payment of 100 per month reaches the target
1200 exactly, and the returned finalValue is 1200. -/
theorem claim3_goal_roundtrip_witness :
    ∃ res, calculateInvestment CalculatorMode.GOAL inpC3 = some res ∧
      res.finalValue = 1200 := by
  obtain ⟨res, hres⟩ := Option.isSome_iff_exists.mp
    (show (calculateInvestment CalculatorMode.GOAL inpC3).isSome = true by
      norm_num [calculateInvestment, runStrategy, goalRun, goalSolvedPMT, goalStep, loopA,
        effRate, durationOf, goalTarget, jsOr, cdiv, jround, assemble, inpC3])
  have hcl := claim3_goal_roundtrip inpC3 res 1200 rfl (by norm_num) hres
  have hpos : 0 < goalRemaining inpC3 := by
    norm_num [goalRemaining, goalTarget, goalRatePerMonth, goalMonths, jsOr, effRate, inpC3]
  refine ⟨res, hres, ?_⟩
  rw [(hcl.1 hpos).1]
  norm_num [jround]

/-- Replaces every missing optional field by an explicit 0, except
`targetAmount` and `startYear`, whose engine defaults are not 0. -/
def zeroFill (inp : InvestmentInputs) : InvestmentInputs :=
  { inp with
    initialInvestment := some (inp.initialInvestment.getD 0),
    monthlyContribution := some (inp.monthlyContribution.getD 0),
    stepUpRate := some (inp.stepUpRate.getD 0),
    compoundingFrequency := some (inp.compoundingFrequency.getD 0),
    inflationRate := some (inp.inflationRate.getD 0),
    taxRate := some (inp.taxRate.getD 0),
    expenseRatioPct := some (inp.expenseRatioPct.getD 0),
    buyPrice := some (inp.buyPrice.getD 0),
    sellPrice := some (inp.sellPrice.getD 0),
    quantity := some (inp.quantity.getD 0),
    dividendYield := some (inp.dividendYield.getD 0),
    propertyPrice := some (inp.propertyPrice.getD 0),
    rentalIncome := some (inp.rentalIncome.getD 0),
    monthlyExpenses := some (inp.monthlyExpenses.getD 0),
    appreciationRate := some (inp.appreciationRate.getD 0),
    annualIncome := some (inp.annualIncome.getD 0),
    deductions := some (inp.deductions.getD 0),
    currentAge := some (inp.currentAge.getD 0),
    retirementAge := some (inp.retirementAge.getD 0) }

/-- A `||`-read field sees no difference between a missing value and an
explicit 0. -/
theorem jsOr_fill (o : Option ℚ) (d : ℚ) : jsOr (some (o.getD 0)) d = jsOr o d := by
  cases o with
  | none => simp [jsOr]
  | some v => rfl

/-- The ROI fallback `sellPrice || initialInvestment` collapses to the
initial investment whenever the sell price is missing or zero. -/
theorem jsOr_getD_self (o : Option ℚ) : jsOr o (o.getD 0) = o.getD 0 := by
  cases o with
  | none => rfl
  | some v => by_cases hv : v = 0 <;> simp [jsOr, hv]

/-- The compounding frequency sees no difference between a missing value and
an explicit 0: both fall back to 1. -/
theorem compFreq_fill (o : Option ℕ) : compFreq (some (o.getD 0)) = compFreq o := by
  cases o with
  | none => rfl
  | some v => rfl

/-- The retirement-age truthiness test sees no difference between a missing
age and an explicit 0: both are falsy. -/
theorem durationOf_fill (m : CalculatorMode) (c r : Option ℤ) (t : ℕ) :
    durationOf m (some (c.getD 0)) (some (r.getD 0)) t = durationOf m c r t := by
  unfold durationOf
  by_cases hm : m = CalculatorMode.RETIREMENT
  · rw [if_pos hm, if_pos hm]
    cases c <;> cases r <;> simp
  · rw [if_neg hm, if_neg hm]

/-- A GOAL input with no target: the engine substitutes 1000000, not 0. -/
def inpC4 : InvestmentInputs := { timePeriodYears := 1, interestRate := 0 }

/-- A ROI input with no sell price: the engine substitutes the initial
investment, not 0. -/
def inpC4roi : InvestmentInputs :=
  { timePeriodYears := 1, interestRate := 0, initialInvestment := some 100 }

/-- C4 fails as stated: with targetAmount missing the engine solves for the
default target 1000000 (payment 83333 per month), where a 0 target would
force a 0 payment, as running the engine's own GOAL strategy on the
spec's 0 default shows; and with sellPrice missing in ROI mode the final
value falls back to the initial investment 100, not 0. -/
theorem claim4_counterexample :
    goalTarget none = 1000000 ∧ goalTargetSpec none = 0 ∧
    (∃ res, calculateInvestment CalculatorMode.GOAL inpC4 = some res ∧
      res.monthlyPayment = 83333) ∧
    (∃ out, goalRun 0 (goalTargetSpec none) 0 currentFullYear 0 12 = some out ∧
      out.monthlyPayment = 0) ∧
    (∃ res, calculateInvestment CalculatorMode.ROI inpC4roi = some res ∧
      res.finalValue = 100 ∧ jround (Option.getD inpC4roi.sellPrice 0) = 0) := by
  refine ⟨rfl, rfl, ?_, ?_, ?_⟩
  · have h1 : (calculateInvestment CalculatorMode.GOAL inpC4).map
        (fun r => r.monthlyPayment) = some 83333 := by
      norm_num [calculateInvestment, runStrategy, goalRun, goalSolvedPMT, goalStep, loopA,
        effRate, durationOf, goalTarget, jsOr, cdiv, jround, assemble, inpC4]
    cases hcalc : calculateInvestment CalculatorMode.GOAL inpC4 with
    | none => rw [hcalc] at h1; simp at h1
    | some res =>
        rw [hcalc] at h1
        simp only [Option.map_some', Option.some.injEq] at h1
        exact ⟨res, rfl, h1⟩
  · have h1 : (goalRun 0 (goalTargetSpec none) 0 currentFullYear 0 12).map
        (fun o => o.monthlyPayment) = some 0 := by
      norm_num [goalRun, goalSolvedPMT, goalStep, loopA, goalTargetSpec, cdiv, jround,
        currentFullYear]
    cases hrun : goalRun 0 (goalTargetSpec none) 0 currentFullYear 0 12 with
    | none => rw [hrun] at h1; simp at h1
    | some out =>
        rw [hrun] at h1
        simp only [Option.map_some', Option.some.injEq] at h1
        exact ⟨out, rfl, h1⟩
  · have h1 : (calculateInvestment CalculatorMode.ROI inpC4roi).map
        (fun r => r.finalValue) = some 100 := by
      norm_num [calculateInvestment, runStrategy, roiRun, buildRows, effRate, durationOf,
        jsOr, cdiv, jround, assemble, inpC4roi]
    cases hcalc : calculateInvestment CalculatorMode.ROI inpC4roi with
    | none => rw [hcalc] at h1; simp at h1
    | some res =>
        rw [hcalc] at h1
        simp only [Option.map_some', Option.some.injEq] at h1
        exact ⟨res, rfl, h1, by norm_num [inpC4roi, jround]⟩

/-- C4 amended: every missing optional field is equivalent to an explicit 0
except three: targetAmount (GOAL default 1000000, also replacing an explicit
0), sellPrice in ROI mode (falls back to the initial investment), and
startYear (defaults to the current calendar year). -/
theorem claim4_defaults_amended :
    (∀ mode inp, calculateInvestment mode (zeroFill inp) = calculateInvestment mode inp) ∧
    (∀ inp, InvestmentInputs.targetAmount inp = none →
      calculateInvestment CalculatorMode.GOAL inp =
        calculateInvestment CalculatorMode.GOAL { inp with targetAmount := some 1000000 }) ∧
    (∀ inp, InvestmentInputs.sellPrice inp = none →
      calculateInvestment CalculatorMode.ROI inp =
        calculateInvestment CalculatorMode.ROI
          { inp with sellPrice := InvestmentInputs.initialInvestment inp }) ∧
    (∀ mode inp, InvestmentInputs.startYear inp = none →
      calculateInvestment mode inp =
        calculateInvestment mode { inp with startYear := some currentFullYear }) := by
  refine ⟨?_, ?_, ?_, ?_⟩
  · intro mode inp
    cases mode <;>
      simp only [calculateInvestment, runStrategy, zeroFill, Option.getD_some,
        jsOr_fill, compFreq_fill, durationOf_fill, effRate]
  · intro inp h
    simp only [calculateInvestment, runStrategy, h, goalTarget, jsOr, effRate]
    norm_num
  · intro inp h
    simp only [calculateInvestment, runStrategy, h, jsOr_getD_self]
    rfl
  · intro mode inp h
    cases mode <;> simp only [calculateInvestment, runStrategy, h, Option.getD_some,
      Option.getD_none, effRate]

/-- Witness for the amended C4: concrete instances of each default. -/
theorem claim4_defaults_amended_witness :
    calculateInvestment CalculatorMode.SIP (zeroFill inpC4) =
      calculateInvestment CalculatorMode.SIP inpC4 ∧
    calculateInvestment CalculatorMode.GOAL inpC4 =
      calculateInvestment CalculatorMode.GOAL { inpC4 with targetAmount := some 1000000 } ∧
    calculateInvestment CalculatorMode.ROI inpC4roi =
      calculateInvestment CalculatorMode.ROI
        { inpC4roi with sellPrice := inpC4roi.initialInvestment } ∧
    calculateInvestment CalculatorMode.TAX inpC4 =
      calculateInvestment CalculatorMode.TAX { inpC4 with startYear := some currentFullYear } :=
  ⟨claim4_defaults_amended.1 CalculatorMode.SIP inpC4,
    claim4_defaults_amended.2.1 inpC4 rfl,
    claim4_defaults_amended.2.2.1 inpC4roi rfl,
    claim4_defaults_amended.2.2.2 CalculatorMode.TAX inpC4 rfl⟩

/-- Witness for C10 at a concrete TAX input with a positive rate. -/
theorem claim10_taxPayable_nonneg_witness :
    ∃ res, calculateInvestment CalculatorMode.TAX inpC6 = some res ∧ 0 ≤ res.taxPayable := by
  obtain ⟨res, hres⟩ := Option.isSome_iff_exists.mp
    (show (calculateInvestment CalculatorMode.TAX inpC6).isSome = true by
      norm_num [calculateInvestment, runStrategy, taxRun, effRate, durationOf,
        jsOr, cdiv, jround, assemble, inpC6])
  refine ⟨res, hres, claim10_taxPayable_nonneg CalculatorMode.TAX inpC6 res ?_ hres⟩
  norm_num [inpC6]

end Invest
